import Mathlib

/-!
Verification of the hook-based state-management core and the polling-request
scheduler of the `lev-izraelit` blog repository.

Part 1 embeds the `MyReact` useState micro-runtime from
`src/pages/post-1/UseStateArr.tsx` (the same code appears in
`src/content/state-hook.md`):

  - `stateHolderArr` is an ordered list of state-holder objects,
  - `currentStateIndex` is the allocation cursor,
  - `useState(initialValue)` either appends a fresh holder (when the cursor
    equals the array length) or reuses the holder at the cursor, then
    increments the cursor and returns the pair `[state, setState]`,
  - `setState(newValue)` overwrites only the captured holder's `state` field,
    resets the cursor to 0 and asks the render host to re-render.

A JS array lookup past the end yields `undefined` and the subsequent
`.state` access would throw, so `useState` is embedded as `Option`-valued;
the `none` case is exactly the out-of-range lookup.

The `setState` closure created together with a holder is captured by object
identity; the embedding records that identity in the immutable `id` field
(the creation index), so "the holder's setState closure is unchanged" is
expressed as "the holder's `id` field is unchanged".
-/

/-- One `stateHolder` object of `UseStateArr.tsx`: the mutable `state` field
and the creation identity standing for the captured `setState` closure. -/
structure StateHolder (V : Type) where
  state : V
  id : Nat
deriving DecidableEq, Repr

/-- The `MyReact` global object: the slot array, the cursor, and the mounted
component reference (opaque; `none` until `render` stores it). -/
structure MyReact (V : Type) where
  stateHolderArr : List (StateHolder V)
  currentStateIndex : Nat
  component : Option Unit
deriving DecidableEq, Repr

namespace MyReact

/-- The initial `MyReact` literal: empty slot array, cursor 0, no component. -/
def initial {V : Type} : MyReact V :=
  { stateHolderArr := []
    currentStateIndex := 0
    component := none }

/-- `MyReact.useState(initialValue)` from `UseStateArr.tsx` lines 9-35: if the
cursor equals the array length, create and append a fresh holder carrying
`initialValue`; otherwise reuse the holder at the cursor. Either way the
cursor advances by one and the selected holder's `[state, setState]` pair is
returned (`setState` as the holder's identity). An out-of-range lookup is the
`none` case. -/
def useState {V : Type} (initialValue : V) (m : MyReact V) :
    Option ((V × Nat) × MyReact V) :=
  let currentStateIndex := m.currentStateIndex
  let stateHolderArr := m.stateHolderArr
  if currentStateIndex = stateHolderArr.length then
    let stateHolder : StateHolder V := { state := initialValue, id := currentStateIndex }
    some ((stateHolder.state, stateHolder.id),
      { m with
        stateHolderArr := stateHolderArr ++ [stateHolder]
        currentStateIndex := currentStateIndex + 1 })
  else
    match stateHolderArr.get? currentStateIndex with
    | some stateHolder =>
        some ((stateHolder.state, stateHolder.id),
          { m with currentStateIndex := currentStateIndex + 1 })
    | none => none

/-- Overwrite only the `state` field of the holder at position `k`, leaving
every other holder (and the chosen holder's identity) untouched. This is the
body `stateHolder.state = newValue` of the captured closure. -/
def setHolderState {V : Type} (arr : List (StateHolder V)) (k : Nat) (v : V) :
    List (StateHolder V) :=
  match arr, k with
  | [], _ => []
  | h :: t, 0 => { h with state := v } :: t
  | h :: t, Nat.succ n => h :: setHolderState t n v

/-- The `setState(newValue)` closure of holder `k` (`UseStateArr.tsx` lines
19-24): `stateHolder.state = newValue; MyReact.currentStateIndex = 0;
render(MyReact.component)`. The render-host call is external and mutates no
store state. -/
def setState {V : Type} (k : Nat) (newValue : V) (m : MyReact V) : MyReact V :=
  { m with
    stateHolderArr := setHolderState m.stateHolderArr k newValue
    currentStateIndex := 0 }

/-- One render pass of the mounted component: the ordered sequence of
`useState` calls it makes, with the initial value passed at each call site.
Returns the list of `[state, setState]` pairs handed back, or `none` if some
call hit an out-of-range lookup. -/
def renderPass {V : Type} (inits : List V) (m : MyReact V) :
    Option (List (V × Nat) × MyReact V) :=
  match inits with
  | [] => some ([], m)
  | i :: rest =>
    match useState i m with
    | none => none
    | some (out, m1) =>
      match renderPass rest m1 with
      | none => none
      | some (outs, m2) => some (out :: outs, m2)

/-- States of the store reachable from the initial literal by any
interleaving of `useState` and `setState` calls. -/
inductive Reachable {V : Type} : MyReact V → Prop
  | init : Reachable initial
  | useState_step (m m' : MyReact V) (i : V) (out : V × Nat) :
      Reachable m → useState i m = some (out, m') → Reachable m'
  | setState_step (m : MyReact V) (k : Nat) (v : V) :
      Reachable m → Reachable (setState k v m)

end MyReact

namespace MyReact

/-- When the cursor is strictly inside the array, `useState` takes the reuse
branch: it returns the holder at the cursor and only increments the cursor. -/
theorem useState_reuse {V : Type} (i : V) (m : MyReact V)
    (h : m.currentStateIndex < m.stateHolderArr.length) :
    ∃ s, m.stateHolderArr.get? m.currentStateIndex = some s ∧
      useState i m =
        some ((s.state, s.id), { m with currentStateIndex := m.currentStateIndex + 1 }) := by
  have hne : m.currentStateIndex ≠ m.stateHolderArr.length := Nat.ne_of_lt h
  have hget : m.stateHolderArr.get? m.currentStateIndex =
      some (m.stateHolderArr.get ⟨m.currentStateIndex, h⟩) := List.get?_eq_get h
  refine ⟨m.stateHolderArr.get ⟨m.currentStateIndex, h⟩, hget, ?_⟩
  simp only [useState, if_neg hne, hget]

/-- When the cursor equals the array length, `useState` takes the create
branch: it appends a fresh holder carrying the initial value. -/
theorem useState_create {V : Type} (i : V) (m : MyReact V)
    (h : m.currentStateIndex = m.stateHolderArr.length) :
    useState i m =
      some ((i, m.currentStateIndex),
        { m with
          stateHolderArr :=
            m.stateHolderArr ++ [{ state := i, id := m.currentStateIndex }]
          currentStateIndex := m.currentStateIndex + 1 }) := by
  simp only [useState, if_pos h]

/-- Running a render pass whose call count fits inside the existing array
succeeds, leaves the array untouched, advances the cursor by the call count,
and hands the Jth call the holder stored at position cursor+J. -/
theorem renderPass_reuse {V : Type} (inits : List V) (m : MyReact V)
    (h : m.currentStateIndex + inits.length ≤ m.stateHolderArr.length) :
    ∃ outs,
      renderPass inits m =
        some (outs,
          { m with currentStateIndex := m.currentStateIndex + inits.length }) ∧
      outs.length = inits.length ∧
      ∀ j, j < inits.length →
        outs.get? j =
          (m.stateHolderArr.get? (m.currentStateIndex + j)).map
            (fun s => (s.state, s.id)) := by
  induction inits generalizing m with
  | nil =>
      refine ⟨[], ?_, rfl, ?_⟩
      · simp [renderPass]
      · intro j hj
        exact absurd hj (Nat.not_lt_zero j)
  | cons i rest ih =>
      have hlt : m.currentStateIndex < m.stateHolderArr.length := by
        have := h
        simp only [List.length_cons] at this
        omega
      obtain ⟨s, hget, hstep⟩ := useState_reuse i m hlt
      have hle : (({ m with currentStateIndex := m.currentStateIndex + 1 } :
          MyReact V)).currentStateIndex + rest.length ≤
          (({ m with currentStateIndex := m.currentStateIndex + 1 } :
          MyReact V)).stateHolderArr.length := by
        simp only [List.length_cons] at h
        simpa using by omega
      obtain ⟨outs, hrun, hlen, hpt⟩ :=
        ih ({ m with currentStateIndex := m.currentStateIndex + 1 }) hle
      refine ⟨(s.state, s.id) :: outs, ?_, by simp [hlen], ?_⟩
      · simp only [renderPass, hstep, hrun]
        have : m.currentStateIndex + 1 + rest.length =
            m.currentStateIndex + (rest.length + 1) := by omega
        simp [this]
      · intro j hj
        cases j with
        | zero =>
            have hget2 : m.stateHolderArr[m.currentStateIndex]? = some s := by
              simpa [List.get?_eq_getElem?] using hget
            simp [hget2]
        | succ j' =>
            have hj' : j' < rest.length := Nat.lt_of_succ_lt_succ hj
            have hp := hpt j' hj'
            have harith : m.currentStateIndex + (j' + 1) =
                m.currentStateIndex + 1 + j' := by omega
            simp only [List.get?_cons_succ, harith]
            simpa using hp

end MyReact

namespace MyReact

/-- Updating one holder's state preserves the array length. -/
theorem setHolderState_length {V : Type} (arr : List (StateHolder V)) (k : Nat) (v : V) :
    (setHolderState arr k v).length = arr.length := by
  induction arr generalizing k with
  | nil => rfl
  | cons a t ih =>
      cases k with
      | zero => simp [setHolderState]
      | succ n => simp [setHolderState, ih]

/-- Updating holder `k` leaves every other position of the array untouched,
state field and identity alike. -/
theorem setHolderState_get_ne {V : Type} (arr : List (StateHolder V)) (k : Nat) (v : V)
    (j : Nat) (h : j ≠ k) :
    (setHolderState arr k v).get? j = arr.get? j := by
  induction arr generalizing k j with
  | nil => rfl
  | cons a t ih =>
      cases k with
      | zero =>
          cases j with
          | zero => exact absurd rfl h
          | succ j2 => simp [setHolderState]
      | succ n =>
          cases j with
          | zero => simp [setHolderState]
          | succ j2 =>
              simp only [setHolderState, List.get?_cons_succ]
              exact ih n j2 (fun he => h (congrArg Nat.succ he))

/-- Updating holder `k` replaces exactly its state field, keeping its
identity. -/
theorem setHolderState_get_eq {V : Type} (arr : List (StateHolder V)) (k : Nat) (v : V) :
    (setHolderState arr k v).get? k =
      (arr.get? k).map (fun s => { s with state := v }) := by
  induction arr generalizing k with
  | nil => rfl
  | cons a t ih =>
      cases k with
      | zero => simp [setHolderState]
      | succ n =>
          simp only [setHolderState, List.get?_cons_succ]
          exact ih n

/-- Every reachable store satisfies the cursor bound: the cursor never
exceeds the slot count. -/
theorem reachable_cursor_le {V : Type} (m : MyReact V) (h : Reachable m) :
    m.currentStateIndex ≤ m.stateHolderArr.length := by
  induction h with
  | init => exact Nat.le_refl 0
  | useState_step m m' i out hr heq ih =>
      by_cases hc : m.currentStateIndex = m.stateHolderArr.length
      · rw [useState_create i m hc] at heq
        simp only [Option.some.injEq, Prod.mk.injEq] at heq
        obtain ⟨-, hm⟩ := heq
        subst hm
        simp only [List.length_append, List.length_cons]
        simp
        omega
      · cases hget : m.stateHolderArr.get? m.currentStateIndex with
        | none =>
            have hnone : useState i m = none := by
              simp only [useState, if_neg hc, hget]
            rw [hnone] at heq
            exact Option.noConfusion heq
        | some s =>
            simp only [useState, if_neg hc, hget, Option.some.injEq,
              Prod.mk.injEq] at heq
            obtain ⟨-, hm⟩ := heq
            subst hm
            obtain ⟨hlt, -⟩ := List.get?_eq_some.mp hget
            exact hlt
  | setState_step m k v hr ih =>
      simp [setState, setHolderState_length]

/-- A store satisfying the cursor bound never hits the out-of-range lookup:
`useState` always succeeds. -/
theorem useState_ne_none_of_le {V : Type} (i : V) (m : MyReact V)
    (h : m.currentStateIndex ≤ m.stateHolderArr.length) :
    useState i m ≠ none := by
  by_cases hc : m.currentStateIndex = m.stateHolderArr.length
  · rw [useState_create i m hc]
    simp
  · obtain ⟨s, -, hstep⟩ := useState_reuse i m (Nat.lt_of_le_of_ne h hc)
    rw [hstep]
    simp

end MyReact

/-- Claim C4 (slot stability): across render passes of the mounted component
in which the store starts at cursor 0 and the N allocation calls fit the
existing slot array, the Kth `useState` call (1-indexed, K ≤ N) returns the
current value (and setter identity) of the slot stored at position K-1, and
the pass leaves the slot array itself unchanged — so the Kth call reads the
same underlying slot on every render pass. -/
theorem C4_slot_stability {V : Type} (m : MyReact V) (inits : List V) (K : Nat)
    (hc : m.currentStateIndex = 0)
    (hlen : inits.length ≤ m.stateHolderArr.length)
    (hK1 : 1 ≤ K) (hKN : K ≤ inits.length) :
    ∃ outs mNext,
      MyReact.renderPass inits m = some (outs, mNext) ∧
      mNext.stateHolderArr = m.stateHolderArr ∧
      outs.get? (K - 1) =
        (m.stateHolderArr.get? (K - 1)).map (fun s => (s.state, s.id)) := by
  have h : m.currentStateIndex + inits.length ≤ m.stateHolderArr.length := by
    rw [hc]
    simpa using hlen
  obtain ⟨outs, hrun, hlen2, hpt⟩ := MyReact.renderPass_reuse inits m h
  refine ⟨outs,
    { m with currentStateIndex := m.currentStateIndex + inits.length },
    hrun, rfl, ?_⟩
  have hKlt : K - 1 < inits.length := by omega
  have hp := hpt (K - 1) hKlt
  simpa [hc] using hp

/-- Witness for C4 at a concrete store with two existing slots holding 7 and
8: a two-call render pass returns slot 1's value 8 at the second call. -/
theorem C4_slot_stability_witness :
    ∃ outs mNext,
      MyReact.renderPass [0, 0] (⟨[⟨7, 0⟩, ⟨8, 1⟩], 0, none⟩ : MyReact Nat) =
        some (outs, mNext) ∧
      mNext.stateHolderArr =
        (⟨[⟨7, 0⟩, ⟨8, 1⟩], 0, none⟩ : MyReact Nat).stateHolderArr ∧
      outs.get? (2 - 1) =
        ((⟨[⟨7, 0⟩, ⟨8, 1⟩], 0, none⟩ :
            MyReact Nat).stateHolderArr.get? (2 - 1)).map
          (fun s => (s.state, s.id)) :=
  C4_slot_stability (⟨[⟨7, 0⟩, ⟨8, 1⟩], 0, none⟩ : MyReact Nat) [0, 0] 2
    rfl (by decide) (by decide) (by decide)

/-- Claim C5 (initial-value-once): at a call site whose slot already exists
(cursor < slot count), `useState` ignores the passed initial value entirely —
any two initial values give the identical result — and returns the stored
slot's current value, changing nothing in the store except the cursor
increment. -/
theorem C5_initial_value_once {V : Type} (i1 i2 : V) (m : MyReact V)
    (h : m.currentStateIndex < m.stateHolderArr.length) :
    MyReact.useState i1 m = MyReact.useState i2 m ∧
    ∃ s, m.stateHolderArr.get? m.currentStateIndex = some s ∧
      MyReact.useState i1 m =
        some ((s.state, s.id),
          { m with currentStateIndex := m.currentStateIndex + 1 }) := by
  obtain ⟨s, hget, hstep1⟩ := MyReact.useState_reuse i1 m h
  obtain ⟨s2, hget2, hstep2⟩ := MyReact.useState_reuse i2 m h
  rw [hget] at hget2
  have hs : s = s2 := Option.some.inj hget2
  refine ⟨?_, s, hget, hstep1⟩
  rw [hstep1, hstep2, hs]

/-- Witness for C5: a store with one slot holding 7 at cursor 0; calling
`useState` with 3 or with 99 gives the same result, returning 7. -/
theorem C5_initial_value_once_witness :
    MyReact.useState 3 (⟨[⟨7, 5⟩], 0, none⟩ : MyReact Nat) =
      MyReact.useState 99 (⟨[⟨7, 5⟩], 0, none⟩ : MyReact Nat) ∧
    ∃ s,
      (⟨[⟨7, 5⟩], 0, none⟩ : MyReact Nat).stateHolderArr.get? 0 = some s ∧
      MyReact.useState 3 (⟨[⟨7, 5⟩], 0, none⟩ : MyReact Nat) =
        some ((s.state, s.id), ⟨[⟨7, 5⟩], 1, none⟩) :=
  C5_initial_value_once 3 99 (⟨[⟨7, 5⟩], 0, none⟩ : MyReact Nat) (by decide)

/-- Claim C6 (cursor reset on setValue): every `setState` invocation resets
the cursor to 0, so the next allocation is the first call of a new render
pass — and concretely, after `useState(0)` twice from the empty store (slots
A and B created), calling A's setter with 5 makes the next render pass return
5 at the first call and 0 at the second. -/
theorem C6_cursor_reset :
    (∀ (V : Type) (m : MyReact V) (k : Nat) (v : V),
      (MyReact.setState k v m).currentStateIndex = 0) ∧
    MyReact.renderPass [0, 0] (MyReact.initial : MyReact Nat) =
      some ([(0, 0), (0, 1)], ⟨[⟨0, 0⟩, ⟨0, 1⟩], 2, none⟩) ∧
    MyReact.setState 0 5 (⟨[⟨0, 0⟩, ⟨0, 1⟩], 2, none⟩ : MyReact Nat) =
      ⟨[⟨5, 0⟩, ⟨0, 1⟩], 0, none⟩ ∧
    MyReact.renderPass [0, 0] (⟨[⟨5, 0⟩, ⟨0, 1⟩], 0, none⟩ : MyReact Nat) =
      some ([(5, 0), (0, 1)], ⟨[⟨5, 0⟩, ⟨0, 1⟩], 2, none⟩) :=
  ⟨fun V m k v => rfl, by decide, by decide, by decide⟩

/-- Claim C9 (cursor never exceeds slot count): in every store reachable from
the empty store by `useState` and `setState` operations, the cursor is at
most the slot count, so the reuse-branch lookup always finds an existing slot
and `useState` never fails. -/
theorem C9_cursor_bound {V : Type} (m : MyReact V) (h : MyReact.Reachable m) :
    m.currentStateIndex ≤ m.stateHolderArr.length ∧
    ∀ i, MyReact.useState i m ≠ none :=
  ⟨MyReact.reachable_cursor_le m h,
    fun i => MyReact.useState_ne_none_of_le i m (MyReact.reachable_cursor_le m h)⟩

/-- Witness for C9 at the initial store. -/
theorem C9_cursor_bound_witness :
    (MyReact.initial : MyReact Nat).currentStateIndex ≤
      (MyReact.initial : MyReact Nat).stateHolderArr.length ∧
    ∀ i, MyReact.useState i (MyReact.initial : MyReact Nat) ≠ none :=
  C9_cursor_bound MyReact.initial MyReact.Reachable.init

/-- Claim C10 (setState frame property): `setState` on slot k changes only
that slot's state field — every other slot (value and setter identity alike),
the array length, the array order and the component reference are untouched,
and the only other store mutation is the cursor reset to 0. -/
theorem C10_setState_frame {V : Type} (m : MyReact V) (k : Nat) (v : V) :
    (MyReact.setState k v m).stateHolderArr.length = m.stateHolderArr.length ∧
    (∀ j, j ≠ k →
      (MyReact.setState k v m).stateHolderArr.get? j =
        m.stateHolderArr.get? j) ∧
    (MyReact.setState k v m).stateHolderArr.get? k =
      (m.stateHolderArr.get? k).map (fun s => { s with state := v }) ∧
    (MyReact.setState k v m).currentStateIndex = 0 ∧
    (MyReact.setState k v m).component = m.component :=
  ⟨MyReact.setHolderState_length m.stateHolderArr k v,
    fun j hj => MyReact.setHolderState_get_ne m.stateHolderArr k v j hj,
    MyReact.setHolderState_get_eq m.stateHolderArr k v,
    rfl, rfl⟩

/-- Witness for C10: updating slot 0 of a two-slot store leaves slot 1
untouched. -/
theorem C10_setState_frame_witness :
    (MyReact.setState 0 9 (⟨[⟨1, 0⟩, ⟨2, 1⟩], 2, none⟩ :
        MyReact Nat)).stateHolderArr.get? 1 =
      (⟨[⟨1, 0⟩, ⟨2, 1⟩], 2, none⟩ : MyReact Nat).stateHolderArr.get? 1 :=
  (C10_setState_frame (⟨[⟨1, 0⟩, ⟨2, 1⟩], 2, none⟩ : MyReact Nat) 0 9).2.1 1
    (by decide)

/-!
Part 2 embeds the polling-request scheduler `useRequest` of
`src/unnamed/part_004` (the identical function appears in
`src/unnamed/part_005`; the earlier variant of the same function in
`src/archive/polling-requests.md` lines 181-199 differs only in performing
the staleness check before the callback).

The source is single-threaded and event-driven: the only suspension point is
the `await axios.get(url)` inside `makeRequest`. The embedding therefore
splits `makeRequest` into its synchronous segments and models the event loop
explicitly:

  - `makeRequestCall` is the segment before the `await`: clear the timer
    referenced by `timeoutId`, assign `currentUrl`, issue the fetch;
  - `resolveOk` is the continuation after a successful `await`: invoke the
    callback, compare the captured `url` against `currentUrl`, and schedule
    the next request only when they still agree;
  - `resolveErr` is a rejected `await`: `makeRequest` has no try/catch, so
    the continuation aborts — no callback, no staleness check, no reschedule;
  - `timerFire` is the runtime firing a scheduled timer, whose task is
    `makeRequest(url, callback)` again;
  - `stop` clears the timer referenced by `timeoutId` and zeroes it.

`timers` is the runtime's set of scheduled-and-not-yet-fired timers — the
source's `timeoutId` variable references at most one of them, but a timer it
no longer references stays scheduled. Timer and fetch identifiers are drawn
from the counter `nextId` (starting at 1, so the cleared value 0 never
matches). `callbackLog` records each URL whose response body was handed to
the callback, and `requestLog` records each URL actually fetched.
-/

namespace Polling

/-- One in-flight network request: its identifier and the `url` argument
captured by the suspended `makeRequest` invocation. -/
structure NetRequest where
  id : Nat
  url : String
deriving DecidableEq, Repr

/-- One scheduled timer: its identifier and the `url` its task will pass to
`makeRequest` when it fires. -/
structure Timer where
  id : Nat
  url : String
deriving DecidableEq, Repr

/-- The state of one `useRequest` closure plus the runtime facilities it
uses: the `timeoutId` and `currentUrl` variables of the closure, the
runtime's pending timers and in-flight fetches, a fresh-identifier counter,
and the observation logs. -/
structure PollingWorld where
  timeoutId : Nat
  currentUrl : Option String
  timers : List Timer
  inFlight : List NetRequest
  nextId : Nat
  callbackLog : List String
  requestLog : List String
deriving DecidableEq, Repr

/-- The `clearTimeout(tid)` runtime call: deschedule the timer with that
identifier, if any (passing 0, the cleared value, matches nothing). -/
def clearTimeoutFn (tid : Nat) (ts : List Timer) : List Timer :=
  ts.filter fun t => t.id != tid

/-- The state right after `useRequest(timeIntervalMs)` returns: `timeoutId`
is 0 (`part_005` initializes it to 0; in `part_004` it is undefined, which
`clearTimeout` treats the same way), no url, nothing scheduled or in
flight. -/
def initWorld : PollingWorld :=
  { timeoutId := 0
    currentUrl := none
    timers := []
    inFlight := []
    nextId := 1
    callbackLog := []
    requestLog := [] }

/-- The synchronous prefix of `makeRequest(url, callback)` (`part_004` lines
10-15): `clearTimeout(timeoutId)`, `currentUrl = url`, then issue the network
request and suspend. -/
def makeRequestCall (url : String) (w : PollingWorld) : PollingWorld :=
  { w with
    timers := clearTimeoutFn w.timeoutId w.timers
    currentUrl := some url
    inFlight := w.inFlight ++ [{ id := w.nextId, url := url }]
    requestLog := w.requestLog ++ [url]
    nextId := w.nextId + 1 }

/-- The continuation of `makeRequest` after `await axios.get(url)` resolves
(`part_004` lines 16-27): `callback(response.data)` runs first, then the
staleness check `if (url !== currentUrl) return`, and only a fresh chain
reaches `timeoutId = setTimeout(() => makeRequest(url, callback), ...)`. -/
def resolveOk (fid : Nat) (w : PollingWorld) : PollingWorld :=
  match w.inFlight.find? (fun f => f.id == fid) with
  | none => w
  | some f =>
    let w1 := { w with
      inFlight := w.inFlight.filter fun g => g.id != fid
      callbackLog := w.callbackLog ++ [f.url] }
    if some f.url = w.currentUrl then
      { w1 with
        timers := w1.timers ++ [{ id := w1.nextId, url := f.url }]
        timeoutId := w1.nextId
        nextId := w1.nextId + 1 }
    else
      w1

/-- The behavior when `await axios.get(url)` rejects: `makeRequest` has no
try/catch, so the rejection aborts the rest of the function — neither the
callback nor the staleness check nor the reschedule runs, and the rejected
promise escapes to nobody. -/
def resolveErr (fid : Nat) (w : PollingWorld) : PollingWorld :=
  { w with inFlight := w.inFlight.filter fun g => g.id != fid }

/-- The continuation of the archived variant of `makeRequest`
(`src/archive/polling-requests.md` lines 181-199): there the staleness check
`if (url !== currentUrl) return` runs BEFORE `callback(response.data)`, so a
stale response invokes no callback at all. -/
def resolveOkArchive (fid : Nat) (w : PollingWorld) : PollingWorld :=
  match w.inFlight.find? (fun f => f.id == fid) with
  | none => w
  | some f =>
    let w1 := { w with inFlight := w.inFlight.filter fun g => g.id != fid }
    if some f.url = w.currentUrl then
      { w1 with
        callbackLog := w1.callbackLog ++ [f.url]
        timers := w1.timers ++ [{ id := w1.nextId, url := f.url }]
        timeoutId := w1.nextId
        nextId := w1.nextId + 1 }
    else
      w1

/-- The runtime fires scheduled timer `tid`: the timer leaves the pending
set and its task `() => makeRequest(url, callback)` runs. -/
def timerFire (tid : Nat) (w : PollingWorld) : PollingWorld :=
  match w.timers.find? (fun t => t.id == tid) with
  | none => w
  | some t =>
      makeRequestCall t.url
        { w with timers := w.timers.filter fun s => s.id != tid }

/-- The `stop` closure of `useRequest` (`part_004` lines 30-33):
`clearTimeout(timeoutId); timeoutId = 0`. Note that `currentUrl` is NOT
touched. -/
def stop (w : PollingWorld) : PollingWorld :=
  { w with
    timers := clearTimeoutFn w.timeoutId w.timers
    timeoutId := 0 }

/-- The observable events of the event loop: a direct `start(url, callback)`
call, a fetch resolving or rejecting, a timer firing, or a `stop()` call. -/
inductive PollEvent where
  | start (url : String)
  | resolveOk (fid : Nat)
  | resolveErr (fid : Nat)
  | timerFire (tid : Nat)
  | stopEv
deriving DecidableEq, Repr

/-- Dispatch one event to the matching synchronous segment. -/
def pollStep : PollEvent → PollingWorld → PollingWorld
  | PollEvent.start url, w => makeRequestCall url w
  | PollEvent.resolveOk fid, w => resolveOk fid w
  | PollEvent.resolveErr fid, w => resolveErr fid w
  | PollEvent.timerFire tid, w => timerFire tid w
  | PollEvent.stopEv, w => stop w

/-- Run a sequence of events from a world, in order. -/
def pollRun (evs : List PollEvent) (w : PollingWorld) : PollingWorld :=
  match evs with
  | [] => w
  | e :: rest => pollRun rest (pollStep e w)

/-- Whether an event is a direct `start` call by the user. -/
def PollEvent.isStart : PollEvent → Bool
  | PollEvent.start _ => true
  | _ => false

end Polling

namespace Polling

/-- A search whose predicate fails on every element of a prefix continues in
the suffix. -/
theorem find?_append_right {α : Type} (p : α → Bool) (l1 l2 : List α)
    (h : ∀ x ∈ l1, p x = false) :
    (l1 ++ l2).find? p = l2.find? p := by
  induction l1 with
  | nil => rfl
  | cons a t ih =>
      have ha : ¬ p a := by simp [h a (List.mem_cons_self a t)]
      rw [List.cons_append, List.find?_cons_of_neg _ ha]
      exact ih fun x hx => h x (List.mem_cons_of_mem a hx)

/-- After `clearTimeout(tid)`, no search for timer `tid` can succeed: the
cancelled timer is really descheduled. -/
theorem find?_clearTimeout (tid : Nat) (ts : List Timer) :
    (clearTimeoutFn tid ts).find? (fun t => t.id == tid) = none := by
  apply List.find?_eq_none.mpr
  intro x hx
  obtain ⟨-, hb⟩ := List.mem_filter.mp hx
  simp only [bne_iff_ne] at hb
  simp [hb]

/-- Resolution of a found, still-current fetch: the callback fires and one
new timer is scheduled and recorded in `timeoutId`. -/
theorem resolveOk_fresh (w : PollingWorld) (fid : Nat) (f : NetRequest)
    (hfind : w.inFlight.find? (fun g => g.id == fid) = some f)
    (hcur : some f.url = w.currentUrl) :
    resolveOk fid w =
      { w with
        inFlight := w.inFlight.filter fun g => g.id != fid
        callbackLog := w.callbackLog ++ [f.url]
        timers := w.timers ++ [{ id := w.nextId, url := f.url }]
        timeoutId := w.nextId
        nextId := w.nextId + 1 } := by
  simp only [resolveOk, hfind]
  rw [if_pos hcur]

/-- Resolution of a found but superseded fetch: the callback still fires (it
runs before the staleness check), but nothing is scheduled. -/
theorem resolveOk_stale (w : PollingWorld) (fid : Nat) (f : NetRequest)
    (hfind : w.inFlight.find? (fun g => g.id == fid) = some f)
    (hstale : ¬ some f.url = w.currentUrl) :
    resolveOk fid w =
      { w with
        inFlight := w.inFlight.filter fun g => g.id != fid
        callbackLog := w.callbackLog ++ [f.url] } := by
  simp only [resolveOk, hfind]
  rw [if_neg hstale]

/-- Resolution of a superseded fetch in the archived variant: the staleness
check runs first, so neither the callback nor any scheduling happens. -/
theorem resolveOkArchive_stale (w : PollingWorld) (fid : Nat) (f : NetRequest)
    (hfind : w.inFlight.find? (fun g => g.id == fid) = some f)
    (hstale : ¬ some f.url = w.currentUrl) :
    resolveOkArchive fid w =
      { w with inFlight := w.inFlight.filter fun g => g.id != fid } := by
  simp only [resolveOkArchive, hfind]
  rw [if_neg hstale]

/-- A world with no timer and no in-flight fetch is quiescent: without a new
`start` call, no event sequence can issue another network request. -/
theorem pollRun_quiescent (evs : List PollEvent) (w : PollingWorld)
    (ht : w.timers = []) (hf : w.inFlight = [])
    (hns : ∀ e ∈ evs, e.isStart = false) :
    (pollRun evs w).requestLog = w.requestLog ∧
    (pollRun evs w).timers = [] ∧
    (pollRun evs w).inFlight = [] := by
  induction evs generalizing w with
  | nil => exact ⟨rfl, ht, hf⟩
  | cons e rest ih =>
      have hstep : (pollStep e w).requestLog = w.requestLog ∧
          (pollStep e w).timers = [] ∧ (pollStep e w).inFlight = [] := by
        cases e with
        | start u =>
            have := hns (PollEvent.start u) (List.mem_cons_self _ _)
            simp [PollEvent.isStart] at this
        | resolveOk fid =>
            have hw : resolveOk fid w = w := by
              simp [resolveOk, hf]
            exact ⟨by rw [pollStep, hw], by rw [pollStep, hw]; exact ht,
              by rw [pollStep, hw]; exact hf⟩
        | resolveErr fid =>
            refine ⟨rfl, ht, ?_⟩
            show w.inFlight.filter _ = []
            rw [hf]
            rfl
        | timerFire tid =>
            have hw : timerFire tid w = w := by
              simp [timerFire, ht]
            exact ⟨by rw [pollStep, hw], by rw [pollStep, hw]; exact ht,
              by rw [pollStep, hw]; exact hf⟩
        | stopEv =>
            refine ⟨rfl, ?_, hf⟩
            show clearTimeoutFn w.timeoutId w.timers = []
            rw [ht]
            rfl
      obtain ⟨h1, h2, h3⟩ := hstep
      obtain ⟨g1, g2, g3⟩ :=
        ih (pollStep e w) h2 h3 fun x hx => hns x (List.mem_cons_of_mem e hx)
      exact ⟨by rw [pollRun, g1, h1], by rw [pollRun]; exact g2,
        by rw [pollRun]; exact g3⟩

end Polling

open Polling

/-- Counterexample to claim C1 as stated: start polling `"u"` and let the
fetch reject. The claim says the scheduler swallows the error and still
reschedules, so a poll would be pending; in fact no timer is pending, the
callback never ran, and nothing is in flight — the chain is dead. -/
theorem C1_counterexample :
    (pollRun [PollEvent.start "u", PollEvent.resolveErr 1] initWorld).timers = [] ∧
    (pollRun [PollEvent.start "u", PollEvent.resolveErr 1] initWorld).callbackLog = [] ∧
    (pollRun [PollEvent.start "u", PollEvent.resolveErr 1] initWorld).inFlight = [] :=
  ⟨rfl, rfl, rfl⟩

/-- Claim C1 amended: `makeRequest` has no try/catch, so a rejected fetch
aborts its continuation — no callback, no staleness check, no reschedule, no
new request — and if the rejection leaves the session with no timer and no
other in-flight fetch, no later event short of a fresh `start` ever issues a
request again: a single failed fetch stops that polling chain. -/
theorem C1_failed_fetch_stops_chain (w : PollingWorld) (fid : Nat) :
    (resolveErr fid w).timers = w.timers ∧
    (resolveErr fid w).callbackLog = w.callbackLog ∧
    (resolveErr fid w).requestLog = w.requestLog ∧
    (resolveErr fid w).currentUrl = w.currentUrl ∧
    (resolveErr fid w).inFlight = w.inFlight.filter (fun g => g.id != fid) ∧
    ∀ evs : List PollEvent,
      (resolveErr fid w).timers = [] →
      (resolveErr fid w).inFlight = [] →
      (∀ e ∈ evs, e.isStart = false) →
      (pollRun evs (resolveErr fid w)).requestLog = w.requestLog :=
  ⟨rfl, rfl, rfl, rfl, rfl, fun evs ht hf hns =>
    (pollRun_quiescent evs (resolveErr fid w) ht hf hns).1⟩

/-- Witness for C1's amended theorem: after the failed fetch of `"u"`, a
later resolution attempt, timer firing and stop change nothing — the request
log stays at the single original request. -/
theorem C1_failed_fetch_stops_chain_witness :
    (pollRun [PollEvent.resolveOk 1, PollEvent.timerFire 2, PollEvent.stopEv]
        (resolveErr 1 (pollStep (PollEvent.start "u") initWorld))).requestLog =
      (pollStep (PollEvent.start "u") initWorld).requestLog :=
  (C1_failed_fetch_stops_chain (pollStep (PollEvent.start "u") initWorld) 1).2.2.2.2.2
    [PollEvent.resolveOk 1, PollEvent.timerFire 2, PollEvent.stopEv]
    (by decide) (by decide) (by decide)

/-- Claim C2 (fencing correctness): after `start(urlA, cb)` is followed by
`start(urlB, cb)` with a different url before urlA's fetch resolves, the
later resolution of urlA's fetch fails the freshness comparison
(`currentUrl` is now urlB): the callback still runs, but no timer is
scheduled and no request is issued for urlA — the stale chain ends. The
freshness hypothesis on `w0` says in-flight identifiers predate the
counter, which holds in every world built from `initWorld`. -/
theorem C2_fencing (w0 : PollingWorld) (urlA urlB : String)
    (hne : urlA ≠ urlB)
    (hfresh : ∀ f ∈ w0.inFlight, f.id < w0.nextId) :
    (pollStep (PollEvent.resolveOk w0.nextId)
        (pollStep (PollEvent.start urlB)
          (pollStep (PollEvent.start urlA) w0))).timers =
      (pollStep (PollEvent.start urlB)
        (pollStep (PollEvent.start urlA) w0)).timers ∧
    (pollStep (PollEvent.resolveOk w0.nextId)
        (pollStep (PollEvent.start urlB)
          (pollStep (PollEvent.start urlA) w0))).requestLog =
      (pollStep (PollEvent.start urlB)
        (pollStep (PollEvent.start urlA) w0)).requestLog ∧
    (pollStep (PollEvent.resolveOk w0.nextId)
        (pollStep (PollEvent.start urlB)
          (pollStep (PollEvent.start urlA) w0))).callbackLog =
      (pollStep (PollEvent.start urlB)
        (pollStep (PollEvent.start urlA) w0)).callbackLog ++ [urlA] := by
  have hpre : ∀ x ∈ w0.inFlight,
      ((fun g : NetRequest => g.id == w0.nextId) x) = false := by
    intro x hx
    simp [Nat.ne_of_lt (hfresh x hx)]
  have hfind : (makeRequestCall urlB
      (makeRequestCall urlA w0)).inFlight.find?
        (fun g => g.id == w0.nextId) = some ⟨w0.nextId, urlA⟩ := by
    show ((w0.inFlight ++ [({ id := w0.nextId, url := urlA } : NetRequest)]) ++
        [({ id := w0.nextId + 1, url := urlB } : NetRequest)]).find?
        (fun g : NetRequest => g.id == w0.nextId) =
      some { id := w0.nextId, url := urlA }
    rw [List.append_assoc, find?_append_right _ _ _ hpre]
    simp
  have hstale : ¬ some ((⟨w0.nextId, urlA⟩ : NetRequest).url) =
      (makeRequestCall urlB (makeRequestCall urlA w0)).currentUrl := by
    show ¬ some urlA = some urlB
    intro h
    exact hne (Option.some.inj h)
  have hres := resolveOk_stale _ _ _ hfind hstale
  simp only [pollStep]
  rw [hres]
  exact ⟨rfl, rfl, rfl⟩

/-- Witness for C2 at `initWorld` with urls `"a"` and `"b"`: resolving fetch
1 (for `"a"`) after `start "b"` schedules nothing and requests nothing. -/
theorem C2_fencing_witness :
    (pollStep (PollEvent.resolveOk 1)
        (pollStep (PollEvent.start "b")
          (pollStep (PollEvent.start "a") initWorld))).timers =
      (pollStep (PollEvent.start "b")
        (pollStep (PollEvent.start "a") initWorld)).timers ∧
    (pollStep (PollEvent.resolveOk 1)
        (pollStep (PollEvent.start "b")
          (pollStep (PollEvent.start "a") initWorld))).requestLog =
      (pollStep (PollEvent.start "b")
        (pollStep (PollEvent.start "a") initWorld)).requestLog ∧
    (pollStep (PollEvent.resolveOk 1)
        (pollStep (PollEvent.start "b")
          (pollStep (PollEvent.start "a") initWorld))).callbackLog =
      (pollStep (PollEvent.start "b")
        (pollStep (PollEvent.start "a") initWorld)).callbackLog ++ ["a"] :=
  C2_fencing initWorld "a" "b" (by decide) (by decide)

/-- Counterexample to claim C3 as stated: start polling `"u"`, call `stop()`
while the fetch is in flight, then let the fetch resolve. The claim says
`stop()` prevents any new scheduled fetch from firing; in fact the resolution
passes the freshness check (`stop` left `currentUrl` alone), schedules timer
2, and when timer 2 fires a second request to `"u"` is issued. -/
theorem C3_counterexample :
    (pollRun [PollEvent.start "u", PollEvent.stopEv, PollEvent.resolveOk 1]
        initWorld).timers = [{ id := 2, url := "u" }] ∧
    (pollRun [PollEvent.start "u", PollEvent.stopEv, PollEvent.resolveOk 1,
        PollEvent.timerFire 2] initWorld).requestLog = ["u", "u"] :=
  ⟨rfl, rfl⟩

/-- Claim C3 amended: `stop()` really cancels the scheduled future — the
timer referenced by `timeoutId` is descheduled and firing it afterwards is a
no-op — but it does not invalidate `currentUrl`, so a fetch in flight at the
moment of `stop` still runs its callback once, passes the freshness check,
and schedules one more fetch (which fires unless `stop` is called again). -/
theorem C3_stop_cancels_future_not_present (w : PollingWorld) (fid : Nat)
    (u : String)
    (hfind : (Polling.stop w).inFlight.find? (fun f => f.id == fid) =
      some { id := fid, url := u })
    (hcur : w.currentUrl = some u) :
    pollStep (PollEvent.timerFire w.timeoutId) (Polling.stop w) =
      Polling.stop w ∧
    (pollStep (PollEvent.resolveOk fid) (Polling.stop w)).callbackLog =
      w.callbackLog ++ [u] ∧
    (pollStep (PollEvent.resolveOk fid) (Polling.stop w)).timers =
      (Polling.stop w).timers ++ [{ id := w.nextId, url := u }] := by
  have hcur2 : some (({ id := fid, url := u } : NetRequest).url) =
      (Polling.stop w).currentUrl := by
    show some u = w.currentUrl
    exact hcur.symm
  have hres := resolveOk_fresh (Polling.stop w) fid { id := fid, url := u }
    hfind hcur2
  refine ⟨?_, ?_, ?_⟩
  · have hn : (Polling.stop w).timers.find?
        (fun t => t.id == w.timeoutId) = none := by
      show (clearTimeoutFn w.timeoutId w.timers).find?
        (fun t => t.id == w.timeoutId) = none
      exact find?_clearTimeout w.timeoutId w.timers
    simp only [pollStep, timerFire, hn]
  · simp only [pollStep]
    rw [hres]
    rfl
  · simp only [pollStep]
    rw [hres]
    rfl

/-- Witness for C3's amended theorem: `stop` right after `start "u"`, with
fetch 1 still in flight. -/
theorem C3_stop_cancels_future_not_present_witness :
    pollStep
        (PollEvent.timerFire
          (pollStep (PollEvent.start "u") initWorld).timeoutId)
        (Polling.stop (pollStep (PollEvent.start "u") initWorld)) =
      Polling.stop (pollStep (PollEvent.start "u") initWorld) ∧
    (pollStep (PollEvent.resolveOk 1)
        (Polling.stop (pollStep (PollEvent.start "u") initWorld))).callbackLog =
      (pollStep (PollEvent.start "u") initWorld).callbackLog ++ ["u"] ∧
    (pollStep (PollEvent.resolveOk 1)
        (Polling.stop (pollStep (PollEvent.start "u") initWorld))).timers =
      (Polling.stop (pollStep (PollEvent.start "u") initWorld)).timers ++
        [{ id := (pollStep (PollEvent.start "u") initWorld).nextId,
           url := "u" }] :=
  C3_stop_cancels_future_not_present
    (pollStep (PollEvent.start "u") initWorld) 1 "u" (by decide) (by decide)

/-- Claim C7 (stale responses still deliver data but never reschedule): when
a fetch resolves whose url has been superseded, the reference variant of
`makeRequest` (`part_004`) still invokes the callback — it runs before the
staleness check — but schedules no timer and issues no request, while the
archived variant (`polling-requests.md`), which checks staleness first,
invokes no callback and schedules nothing. -/
theorem C7_stale_response_callback (w : PollingWorld) (fid : Nat)
    (f : NetRequest)
    (hfind : w.inFlight.find? (fun g => g.id == fid) = some f)
    (hstale : ¬ some f.url = w.currentUrl) :
    (pollStep (PollEvent.resolveOk fid) w).callbackLog =
      w.callbackLog ++ [f.url] ∧
    (pollStep (PollEvent.resolveOk fid) w).timers = w.timers ∧
    (pollStep (PollEvent.resolveOk fid) w).requestLog = w.requestLog ∧
    (resolveOkArchive fid w).callbackLog = w.callbackLog ∧
    (resolveOkArchive fid w).timers = w.timers := by
  have h1 := resolveOk_stale w fid f hfind hstale
  have h2 := resolveOkArchive_stale w fid f hfind hstale
  simp only [pollStep]
  rw [h1, h2]
  exact ⟨rfl, rfl, rfl, rfl, rfl⟩

/-- Witness for C7: fetch 1 for `"a"` resolves after `start "b"`; the
reference variant logs the callback for `"a"`, the archived variant does
not. -/
theorem C7_stale_response_callback_witness :
    (pollStep (PollEvent.resolveOk 1)
        (pollStep (PollEvent.start "b")
          (pollStep (PollEvent.start "a") initWorld))).callbackLog =
      (pollStep (PollEvent.start "b")
        (pollStep (PollEvent.start "a") initWorld)).callbackLog ++ ["a"] ∧
    (pollStep (PollEvent.resolveOk 1)
        (pollStep (PollEvent.start "b")
          (pollStep (PollEvent.start "a") initWorld))).timers =
      (pollStep (PollEvent.start "b")
        (pollStep (PollEvent.start "a") initWorld)).timers ∧
    (pollStep (PollEvent.resolveOk 1)
        (pollStep (PollEvent.start "b")
          (pollStep (PollEvent.start "a") initWorld))).requestLog =
      (pollStep (PollEvent.start "b")
        (pollStep (PollEvent.start "a") initWorld)).requestLog ∧
    (resolveOkArchive 1
        (pollStep (PollEvent.start "b")
          (pollStep (PollEvent.start "a") initWorld))).callbackLog =
      (pollStep (PollEvent.start "b")
        (pollStep (PollEvent.start "a") initWorld)).callbackLog ∧
    (resolveOkArchive 1
        (pollStep (PollEvent.start "b")
          (pollStep (PollEvent.start "a") initWorld))).timers =
      (pollStep (PollEvent.start "b")
        (pollStep (PollEvent.start "a") initWorld)).timers :=
  C7_stale_response_callback
    (pollStep (PollEvent.start "b") (pollStep (PollEvent.start "a") initWorld))
    1 { id := 1, url := "a" } (by decide) (by decide)

/-- Counterexample to claim C8's consequence "at most one scheduled
next-fetch timer is pending at any time": two overlapping starts for the
same url, both fetches resolving while the url is still current, leave TWO
pending timers (3 and 4) — the first resolution's timer is never cleared by
the second resolution, whose `clearTimeout` ran before its `await`. -/
theorem C8_counterexample :
    (pollRun [PollEvent.start "u", PollEvent.start "u", PollEvent.resolveOk 1,
        PollEvent.resolveOk 2] initWorld).timers =
      [{ id := 3, url := "u" }, { id := 4, url := "u" }] ∧
    (pollRun [PollEvent.start "u", PollEvent.start "u", PollEvent.resolveOk 1,
        PollEvent.resolveOk 2] initWorld).timers.length = 2 :=
  ⟨rfl, rfl⟩

/-- Claim C8 amended: every `start(url, onData)` call does begin by
descheduling the timer referenced by `timeoutId` and sets `currentUrl = url`
before issuing exactly one new fetch — but this does not bound the number of
pending timers by one, since timers scheduled by overlapping resolutions are
not referenced by `timeoutId` and survive. -/
theorem C8_start_cancels_pending_timer (w : PollingWorld) (url : String) :
    (∀ t ∈ (pollStep (PollEvent.start url) w).timers, t.id ≠ w.timeoutId) ∧
    (pollStep (PollEvent.start url) w).currentUrl = some url ∧
    (pollStep (PollEvent.start url) w).requestLog = w.requestLog ++ [url] ∧
    (pollStep (PollEvent.start url) w).inFlight =
      w.inFlight ++ [{ id := w.nextId, url := url }] := by
  refine ⟨?_, rfl, rfl, rfl⟩
  intro t ht
  have ht2 : t ∈ w.timers.filter (fun s => s.id != w.timeoutId) := ht
  obtain ⟨-, hb⟩ := List.mem_filter.mp ht2
  simpa [bne_iff_ne] using hb

/-- Witness for C8's amended theorem: starting `"u"` in a world whose
`timeoutId` references timer 5 deschedules it; the surviving timer 7 is not
the referenced one. -/
theorem C8_start_cancels_pending_timer_witness :
    ({ id := 7, url := "y" } : Timer).id ≠
      ({ timeoutId := 5, currentUrl := none,
         timers := [{ id := 5, url := "x" }, { id := 7, url := "y" }],
         inFlight := [], nextId := 8, callbackLog := [],
         requestLog := [] } : PollingWorld).timeoutId :=
  (C8_start_cancels_pending_timer
    ({ timeoutId := 5, currentUrl := none,
       timers := [{ id := 5, url := "x" }, { id := 7, url := "y" }],
       inFlight := [], nextId := 8, callbackLog := [],
       requestLog := [] } : PollingWorld) "u").1
    { id := 7, url := "y" } (by decide)
